import Mathlib

/-!
Verification development for the schema-constrained generation loop described
in the repository's design specification.  The repository itself is a notebook
that exercises an external validation library (`guardrails`); the specification
reconstructs, at a design level, the core mechanism the notebook demonstrates:
a SchemaDescriptor data model, a PromptComposer, an OutputParser, per-field
Validators with corrective-action policies, and a bounded ReaskOrchestrator
loop.  Every definition below is modelled from the specification's component
design, since the library code being demonstrated is not part of this
repository's sources.
-/

namespace Spec2Proof

/-- Modelled from the spec: the fixed closed set of primitive type tags of a
FieldSpec (§3 data model); the library's tag set is not in this repository. -/
inductive TypeTag where
  | integer
  | string
  | float
  | boolean
  deriving DecidableEq

/-- Modelled from the spec: decoded field values.  A float is represented
exactly as a decimal mantissa together with the number of decimal digits
(value = mantissa / 10 ^ decimals), avoiding machine floating point. -/
inductive Value where
  | vInt (i : Int)
  | vStr (s : String)
  | vFloat (mantissa : Int) (decimals : Nat)
  | vBool (b : Bool)
  deriving DecidableEq

/-- Modelled from the spec: the closed set of corrective-action variants
(§3 OnFailAction); the library's on-fail tags are not in this repository. -/
inductive OnFailAction where
  | reask
  | fix
  | filter
  | refrain
  | noop
  | raiseError
  | fixThenReask
  deriving DecidableEq

/-- Modelled from the spec: a recorded validation failure — the field that
failed, the failing validator's corrective-action policy, the optional
corrected value it supplied, and a human-readable reason (§4.5). -/
structure ValidationFailure where
  fieldName : String
  action : OnFailAction
  corrected : Option Value
  reason : String
  deriving DecidableEq

/-- Modelled from the spec: a Validator is a predicate over a single field's
decoded value plus an associated OnFailAction and an optional corrected
value on failure (§3, §4.5); validator internals are not in this repository. -/
structure Validator where
  check : Value → Bool
  correct : Value → Option Value
  onFail : OnFailAction
  reason : String

/-- Modelled from the spec: a FieldSpec has a name, a type tag, a description
and an ordered sequence of validators (§3). -/
structure FieldSpec where
  name : String
  tag : TypeTag
  description : String
  validators : List Validator

/-- Modelled from the spec: a SchemaDescriptor is an ordered sequence of
FieldSpecs (§3). -/
structure SchemaDescriptor where
  fields : List FieldSpec

/-- Modelled from the spec: the construction-time invariant that field names
are unique within a schema (§3, §4.1). -/
def SchemaDescriptor.wellFormed (s : SchemaDescriptor) : Prop :=
  (s.fields.map FieldSpec.name).Nodup

/-- Modelled from the spec: a CandidateOutput maps field names to decoded
values (absent fields simply missing from the list) and carries the log of
per-field coercion failures (§3, §4.4). -/
structure CandidateOutput where
  values : List (String × Value)
  coercionFailures : List String
  deriving DecidableEq

/-- Modelled from the spec: the error raised on total structural failure of
the raw model text (§4.4, §7). -/
inductive ParseError where
  | structuralFailure
  deriving DecidableEq

/-- Modelled from the spec: the orchestrator's terminal outcome — a
best-effort result mapping with unresolved-failure notes and the raw text of
the final attempt, the explicit refrained sentinel, a surfaced
ValidationError, or a fatal transport failure (§4.6, §6, §7). -/
inductive FinalResult where
  | ok (result : List (String × Value)) (unresolved : List ValidationFailure) (raw : String)
  | refrained (raw : String)
  | validationError (reason : String)
  | transportFailed
  deriving DecidableEq

/-! ### Output parsing (OutputParser, spec §4.4)

Structural decoding of a flat serialized object `{"k": v, ...}` into raw
key/value strings, followed by per-field type coercion. -/

/-- Whitespace recognizer used by the structural decoder. -/
def isWsChar (c : Char) : Bool :=
  c = ' ' || c = '\n' || c = '\t' || c = '\r'

/-- Drop leading whitespace characters. -/
def dropWs : List Char → List Char
  | [] => []
  | c :: cs => if isWsChar c then dropWs cs else c :: cs

/-- Read the body of a double-quoted string (opening quote already consumed),
returning the content and the remainder after the closing quote. -/
def readQuoted : List Char → Option (List Char × List Char)
  | [] => none
  | c :: cs =>
    if c = '"' then some ([], cs)
    else
      match readQuoted cs with
      | none => none
      | some (s, rest) => some (c :: s, rest)

/-- Read a bare (unquoted) token up to a separator or whitespace. -/
def readBare : List Char → List Char × List Char
  | [] => ([], [])
  | c :: cs =>
    if c = ',' || c = '}' || isWsChar c then ([], c :: cs)
    else
      match readBare cs with
      | (t, rest) => (c :: t, rest)

/-- Read one member value: either a quoted string or a nonempty bare token. -/
def readValue (input : List Char) : Option (List Char × List Char) :=
  match dropWs input with
  | [] => none
  | c :: cs =>
    if c = '"' then readQuoted cs
    else
      match readBare (c :: cs) with
      | ([], _) => none
      | (t, rest) => some (t, rest)

/-- Read the members of an object after the opening brace, consuming the
closing brace; fuel-driven recursion (fuel is always instantiated to more
than the input length). -/
def readMembers : Nat → List Char → Option (List (String × String) × List Char)
  | 0, _ => none
  | fuel + 1, input =>
    match dropWs input with
    | [] => none
    | c :: cs =>
      if c = '"' then
        match readQuoted cs with
        | none => none
        | some (key, rest1) =>
          match dropWs rest1 with
          | ':' :: rest2 =>
            match readValue rest2 with
            | none => none
            | some (val, rest3) =>
              match dropWs rest3 with
              | ',' :: rest4 =>
                match readMembers fuel rest4 with
                | none => none
                | some (pairs, rest5) =>
                  some ((String.mk key, String.mk val) :: pairs, rest5)
              | '}' :: rest4 => some ([(String.mk key, String.mk val)], rest4)
              | _ => none
          | _ => none
      else none

/-- Modelled from the spec: structural decoding of the raw model text into a
mapping of raw key/value strings; `none` is total structural failure (§4.4).
The library's serialized-object parser is not in this repository. -/
def structuralDecode (raw : String) : Option (List (String × String)) :=
  match dropWs raw.data with
  | '{' :: rest =>
    match dropWs rest with
    | '}' :: rest2 => if (dropWs rest2).isEmpty then some [] else none
    | _ =>
      match readMembers (raw.length + 1) rest with
      | none => none
      | some (pairs, rest2) => if (dropWs rest2).isEmpty then some pairs else none
  | _ => none

/-- Decimal digit value of a character, if it is a digit. -/
def digitVal (c : Char) : Option Nat :=
  if '0' ≤ c ∧ c ≤ '9' then some (c.toNat - '0'.toNat) else none

/-- Accumulate a run of decimal digits into a natural number; fails on any
non-digit character. -/
def digitsToNatAux : List Char → Nat → Option Nat
  | [], acc => some acc
  | c :: cs, acc =>
    match digitVal c with
    | some d => digitsToNatAux cs (acc * 10 + d)
    | none => none

/-- Parse an optionally negated run of decimal digits as an integer. -/
def parseIntChars : List Char → Option Int
  | [] => none
  | '-' :: cs =>
    match cs with
    | [] => none
    | _ => (digitsToNatAux cs 0).map (fun n => -(n : Int))
  | cs => (digitsToNatAux cs 0).map (fun n => (n : Int))

/-- Parse a decimal numeral with an optional fractional part into
(mantissa, number of decimal digits). -/
def parseDecimalChars (cs : List Char) : Option (Int × Nat) :=
  match cs.splitOn '.' with
  | [whole] => (parseIntChars whole).map (fun i => (i, 0))
  | [whole, frac] =>
    match parseIntChars whole, digitsToNatAux frac 0 with
    | some i, some f =>
      if frac.isEmpty then none
      else
        let sign : Int := if whole.head? = some '-' then -1 else 1
        some (i * (10 : Int) ^ frac.length + sign * (f : Int), frac.length)
    | _, _ => none
  | _ => none

/-- Modelled from the spec: per-field type coercion of a raw value string
according to the FieldSpec's type tag (§4.4); `none` is a CoercionFailure. -/
def coerceValue (tag : TypeTag) (s : String) : Option Value :=
  match tag with
  | .integer => (parseIntChars s.data).map Value.vInt
  | .string => some (Value.vStr s)
  | .boolean =>
    if s = "true" then some (Value.vBool true)
    else if s = "false" then some (Value.vBool false)
    else none
  | .float => (parseDecimalChars s.data).map (fun p => Value.vFloat p.1 p.2)

/-- The decoded value of one field from the raw key/value mapping: `none`
when the key is missing or its raw value cannot be coerced. -/
def decodeField (kvs : List (String × String)) (fs : FieldSpec) : Option Value :=
  match kvs.find? (fun p => p.1 == fs.name) with
  | none => none
  | some p => coerceValue fs.tag p.2

/-- Modelled from the spec: assemble the CandidateOutput from the decoded
key/value mapping — a field whose raw value cannot be coerced to its declared
type is recorded as absent and logged as a CoercionFailure (§4.4). -/
def buildCandidate (kvs : List (String × String)) (schema : SchemaDescriptor) :
    CandidateOutput where
  values := schema.fields.filterMap
    (fun fs => (decodeField kvs fs).map (fun v => (fs.name, v)))
  coercionFailures := schema.fields.filterMap
    (fun fs =>
      match kvs.find? (fun p => p.1 == fs.name) with
      | none => none
      | some p => if (coerceValue fs.tag p.2).isNone then some fs.name else none)

/-- Modelled from the spec: `OutputParser.parse` — raises ParseError exactly
on total structural failure, otherwise builds the CandidateOutput with
coercion failures logged, never raised (§4.4). -/
def parse (raw : String) (schema : SchemaDescriptor) :
    Except ParseError CandidateOutput :=
  match structuralDecode raw with
  | none => .error .structuralFailure
  | some kvs => .ok (buildCandidate kvs schema)

/-- Modelled from the spec: the orchestrator's Parsing step — a ParseError is
treated as a full-output validation failure, with every schema field
considered failed (absent), rather than aborting (§4.6 step 3, §7). -/
def parseToCandidate (raw : String) (schema : SchemaDescriptor) : CandidateOutput :=
  match parse raw schema with
  | .error _ => ⟨[], schema.fields.map FieldSpec.name⟩
  | .ok cand => cand

/-! ### Validation and the Deciding step (spec §4.5, §4.6) -/

/-- Modelled from the spec: run all of a field's validators over its decoded
value, aggregating failures (§4.5).  An absent value (missing key, coercion
failure, or total parse failure) fails every validator of the field; a field
with no validators whose value is absent yields a single default re-ask
failure, since CoercionFailure and ParseError are absorbed into the
validation-failure mechanism and drive re-ask behavior (§7). -/
def validateField (fs : FieldSpec) (v? : Option Value) : List ValidationFailure :=
  match v? with
  | some v =>
    fs.validators.filterMap (fun vd =>
      if vd.check v then none
      else some ⟨fs.name, vd.onFail, vd.correct v, vd.reason⟩)
  | none =>
    match fs.validators with
    | [] => [⟨fs.name, .reask, none, "missing or uncoercible value"⟩]
    | vds => vds.map (fun vd => ⟨fs.name, vd.onFail, none, vd.reason⟩)

/-- Look up a field's decoded value in the candidate output. -/
def lookupVal (cand : CandidateOutput) (name : String) : Option Value :=
  match cand.values.find? (fun p => p.1 == name) with
  | none => none
  | some p => some p.2

/-- All validation failures of a candidate output, in schema field order. -/
def fieldFailures (schema : SchemaDescriptor) (cand : CandidateOutput) :
    List ValidationFailure :=
  schema.fields.foldr
    (fun fs acc => validateField fs (lookupVal cand fs.name) ++ acc) []

/-- Modelled from the spec: per-field resolution of the non-global corrective
actions (§4.6 Deciding).  Returns the field's final value (`none` = absent or
filtered) together with the re-ask marks it contributes:
`NoOp` keeps the invalid value; `Filter` removes the field; `Reask` keeps the
last known value and marks the field; `Fix` replaces the value with the
validator-supplied correction, re-running validators once — if still failing
it degrades to NoOp (failure only logged); `FixThenReask` applies the fix and
escalates to Reask if the fixed value still fails.  When several validators
of one field fail, the first failure's action is dispatched. -/
def resolveField (fs : FieldSpec) (v? : Option Value) :
    Option Value × List ValidationFailure :=
  match validateField fs v? with
  | [] => (v?, [])
  | f :: _ =>
    match f.action with
    | .noop => (v?, [])
    | .filter => (none, [])
    | .reask => (v?, [f])
    | .fix =>
      match f.corrected with
      | some c => (some c, [])
      | none => (v?, [])
    | .fixThenReask =>
      match f.corrected with
      | some c =>
        if (validateField fs (some c)).isEmpty then (some c, [])
        else (some c, [⟨f.fieldName, f.action, some c, f.reason⟩])
      | none => (v?, [f])
    | .raiseError => (v?, [])
    | .refrain => (v?, [])

/-- The best-effort result mapping assembled after Filter/Fix adjustments:
absent and filtered fields are omitted, all others keep their resolved
value (§4.6 Done). -/
def assembledMap (schema : SchemaDescriptor) (cand : CandidateOutput) :
    List (String × Value) :=
  schema.fields.filterMap
    (fun fs => (resolveField fs (lookupVal cand fs.name)).1.map (fun v => (fs.name, v)))

/-- The fields marked for re-ask in this round, in schema field order. -/
def reaskMarks (schema : SchemaDescriptor) (cand : CandidateOutput) :
    List ValidationFailure :=
  schema.fields.foldr
    (fun fs acc => (resolveField fs (lookupVal cand fs.name)).2 ++ acc) []

/-- Outcome of the Validating/Deciding states for one attempt. -/
inductive AttemptOutcome where
  | raiseErr (reason : String)
  | refrainAll
  | done (result : List (String × Value)) (reasks : List ValidationFailure)
  deriving DecidableEq

/-- Modelled from the spec: the Deciding state (§4.6 step 5).  A failing
validator with policy RaiseError surfaces ValidationError immediately,
terminating the loop; otherwise a failing Refrain validator discards the
entire result in favour of the no-output sentinel; otherwise the per-field
actions are resolved into a best-effort mapping and a batch of re-ask
marks. -/
def decideAttempt (schema : SchemaDescriptor) (cand : CandidateOutput) :
    AttemptOutcome :=
  let fails := fieldFailures schema cand
  match fails.find? (fun f => f.action == .raiseError) with
  | some f => .raiseErr f.reason
  | none =>
    if fails.any (fun f => f.action == .refrain) then .refrainAll
    else .done (assembledMap schema cand) (reaskMarks schema cand)

/-! ### Prompt composition (PromptComposer, spec §4.2) -/

/-- Rendering of a type tag in the schema section of the prompt. -/
def renderTag : TypeTag → String
  | .integer => "integer"
  | .string => "string"
  | .float => "float"
  | .boolean => "boolean"

/-- Rendering of the schema: field names, types and descriptions (§4.2). -/
def renderSchema (schema : SchemaDescriptor) : String :=
  schema.fields.foldr
    (fun fs acc => fs.name ++ " : " ++ renderTag fs.tag ++ " -- " ++ fs.description ++ "\n" ++ acc) ""

/-- Rendering of which fields failed and why, for re-ask prompts (§4.2). -/
def renderFailures : List ValidationFailure → String
  | [] => ""
  | f :: fs => f.fieldName ++ " failed: " ++ f.reason ++ "\n" ++ renderFailures fs

/-- Modelled from the spec: `PromptComposer.compose` — embeds the instruction
text, the user query, the schema rendering, and, only when prior failures are
present (re-ask attempts), a rendering of which fields failed and why (§4.2).
Per the spec's §9 design note, re-ask prompts deliberately include the
original query, deviating from the observed upstream behavior. -/
def compose (base query : String) (schema : SchemaDescriptor)
    (prior : List ValidationFailure) : String :=
  base ++ "\n" ++ query ++ "\n" ++ renderSchema schema ++
    (if prior.isEmpty then ""
     else "\nThe following fields failed validation:\n" ++ renderFailures prior)

/-! ### The ReaskOrchestrator loop (spec §4.6) -/

/-- Result of one Composing→Requesting→Parsing→Validating→Deciding pass:
either a terminal outcome, or a best-effort result whose re-ask marks call
for another round. -/
inductive StepOut where
  | terminal (r : FinalResult)
  | needsReask (result : List (String × Value)) (reasks : List ValidationFailure) (raw : String)
  deriving DecidableEq

/-- Modelled from the spec: one pass of the orchestrator's state machine
(§4.6 steps 1–5).  The model client is a function of the attempt index and
the composed prompt; `none` models a TransportError, which is immediately
fatal. -/
def stepAttempt (schema : SchemaDescriptor) (base query : String)
    (model : Nat → String → Option String) (attempt : Nat)
    (prior : List ValidationFailure) : StepOut :=
  let prompt := compose base query schema prior
  match model attempt prompt with
  | none => .terminal .transportFailed
  | some raw =>
    match decideAttempt schema (parseToCandidate raw schema) with
    | .raiseErr r => .terminal (.validationError r)
    | .refrainAll => .terminal (.refrained raw)
    | .done m rs =>
      if rs.isEmpty then .terminal (.ok m [] raw)
      else .needsReask m rs raw

/-- Modelled from the spec: the bounded re-ask loop (§4.6 steps 6–7, §4.6
re-ask budget).  The first argument is the remaining re-ask budget; each
re-ask round consumes one unit regardless of how many fields requested
re-ask.  Exhausting the budget is not an error: the best-effort result is
returned with the unresolved re-ask marks attached.  The returned number is
the total count of model calls made. -/
def orchestrateGo (schema : SchemaDescriptor) (base query : String)
    (model : Nat → String → Option String) :
    Nat → Nat → List ValidationFailure → FinalResult × Nat
  | 0, attempt, prior =>
    match stepAttempt schema base query model attempt prior with
    | .terminal r => (r, attempt + 1)
    | .needsReask m rs raw => (.ok m rs raw, attempt + 1)
  | budget + 1, attempt, prior =>
    match stepAttempt schema base query model attempt prior with
    | .terminal r => (r, attempt + 1)
    | .needsReask _ rs _ => orchestrateGo schema base query model budget (attempt + 1) rs

/-- Modelled from the spec: the ReaskOrchestrator entry point — runs the loop
with the full `maxReasks` budget from attempt 0 with no prior failures,
returning the final result and the total number of model calls (§4.6). -/
def orchestrate (schema : SchemaDescriptor) (base query : String)
    (model : Nat → String → Option String) (maxReasks : Nat) : FinalResult × Nat :=
  orchestrateGo schema base query model maxReasks 0 []

/-! ### Concrete scenario material from the notebook's demonstrations -/

/-- Modelled from the spec: the `ValidRange(lo, hi)` validator of the
demonstrated library — checks that an integer value lies within the closed
range; its deterministic fix clamps the value to the nearest bound (§4.5,
§8 scenarios). -/
def validRange (lo hi : Int) (action : OnFailAction) : Validator where
  check := fun v =>
    match v with
    | .vInt i => decide (lo ≤ i ∧ i ≤ hi)
    | _ => false
  correct := fun v =>
    match v with
    | .vInt i => some (.vInt (if i < lo then lo else if hi < i then hi else i))
    | _ => none
  onFail := action
  reason := "value out of range"

/-- The one-integer-field schema of the §8 scenarios, with a
`ValidRange(0,10)` validator carrying the given on-fail policy. -/
def answerSchema (action : OnFailAction) : SchemaDescriptor :=
  ⟨[⟨"value", .integer, "The answer to the question.", [validRange 0 10 action]⟩]⟩

/-- The validator-free one-integer-field schema (the notebook's
`IntegerAnswer` pydantic model). -/
def integerAnswerSchema : SchemaDescriptor :=
  ⟨[⟨"value", .integer, "The answer to the question.", []⟩]⟩

/-- Raw mock response `{"value": "-2"}` from the notebook's scenarios. -/
def rawNeg2 : String := "\x7b\"value\": \"-2\"\x7d"

/-- Raw mock response `{"value": "14"}` from the notebook's fix scenario. -/
def rawFourteen : String := "\x7b\"value\": \"14\"\x7d"

/-- Raw mock response `{"value": "2"}` from the notebook's re-ask scenario. -/
def rawTwo : String := "\x7b\"value\": \"2\"\x7d"

/-- Raw mock response `{"value": "the answer is 2"}`: structurally valid but
with a value that cannot be coerced to an integer. -/
def rawUncoercible : String := "\x7b\"value\": \"the answer is 2\"\x7d"

/-- A raw response that is not structurally decodable at all. -/
def rawGarbage : String := "not json"

/-- A field carrying a failing-capable `Refrain`-policy range validator. -/
def fieldRefrainA : FieldSpec := ⟨"a", .integer, "first", [validRange 0 10 .refrain]⟩

/-- A field carrying a `RaiseError`-policy range validator. -/
def fieldRaiseB : FieldSpec := ⟨"b", .integer, "second", [validRange 0 10 .raiseError]⟩

/-- Two-field schema mixing a Refrain-policy field with a RaiseError-policy
field. -/
def refrainRaiseSchema : SchemaDescriptor := ⟨[fieldRefrainA, fieldRaiseB]⟩

/-- Raw response in which both fields of a two-field schema are out of
range. -/
def rawBothNeg : String := "\x7b\"a\": \"-2\", \"b\": \"-2\"\x7d"

/-- A field carrying a `Filter`-policy range validator, named `a`. -/
def fieldFilterA : FieldSpec := ⟨"a", .integer, "first", [validRange 0 10 .filter]⟩

/-- A second field carrying a `Filter`-policy range validator, named `b`. -/
def fieldFilterB : FieldSpec := ⟨"b", .integer, "second", [validRange 0 10 .filter]⟩

/-- Two-field schema in which both fields carry Filter-policy validators. -/
def twoFilterSchema : SchemaDescriptor := ⟨[fieldFilterA, fieldFilterB]⟩

/-- Raw response in which field `a` is out of range and field `b` is in
range. -/
def rawMixed : String := "\x7b\"a\": \"-2\", \"b\": \"2\"\x7d"

/-! ### General lemmas about the orchestrator loop -/

/-- A terminal first pass makes the loop return after exactly one model
call, whatever the remaining re-ask budget. -/
theorem orchestrateGo_of_terminal (schema : SchemaDescriptor) (base query : String)
    (model : Nat → String → Option String) (attempt : Nat)
    (prior : List ValidationFailure) (r : FinalResult)
    (h : stepAttempt schema base query model attempt prior = .terminal r) :
    ∀ budget, orchestrateGo schema base query model budget attempt prior = (r, attempt + 1) := by
  intro budget
  cases budget with
  | zero => simp [orchestrateGo, h]
  | succ n => simp [orchestrateGo, h]

/-- A right fold of list appends over pointwise-empty contributions is
empty. -/
theorem foldr_append_of_all_nil {α β : Type} (l : List α) (f : α → List β)
    (h : ∀ x ∈ l, f x = []) : l.foldr (fun x acc => f x ++ acc) [] = [] := by
  induction l with
  | nil => rfl
  | cons a t ih =>
    simp only [List.foldr_cons, h a (List.mem_cons_self a t)]
    exact ih (fun x hx => h x (List.mem_cons_of_mem a hx))

/-- Looking a field up in the values assembled by `buildCandidate` is the
same as decoding that field directly, given unique field names. -/
theorem find_values_aux (kvs : List (String × String)) (fs : FieldSpec) :
    ∀ l : List FieldSpec, (l.map FieldSpec.name).Nodup → fs ∈ l →
      (l.filterMap (fun g => (decodeField kvs g).map (fun v => (g.name, v)))).find?
          (fun p => p.1 == fs.name)
        = (decodeField kvs fs).map (fun v => (fs.name, v)) := by
  intro l
  induction l with
  | nil => intro _ h; cases h
  | cons g t ih =>
    intro hnd hmem
    have hnd' : (g.name :: t.map FieldSpec.name).Nodup := by simpa using hnd
    have hgt : g.name ∉ t.map FieldSpec.name := (List.nodup_cons.mp hnd').1
    have htail : (t.map FieldSpec.name).Nodup := (List.nodup_cons.mp hnd').2
    have hnone_tail : ∀ n : String, n ∉ t.map FieldSpec.name →
        (t.filterMap (fun g' => (decodeField kvs g').map (fun v => (g'.name, v)))).find?
            (fun p => p.1 == n) = none := by
      intro n hn
      rw [List.find?_eq_none]
      intro p hp
      rcases List.mem_filterMap.mp hp with ⟨g', hg', hmap⟩
      rcases Option.map_eq_some'.mp hmap with ⟨w, _, heq⟩
      intro hbeq
      apply hn
      have hp1 : p.1 = g'.name := by rw [← heq]
      rw [← beq_iff_eq.mp hbeq, hp1]
      exact List.mem_map_of_mem FieldSpec.name hg'
    rcases List.mem_cons.mp hmem with heq | hmem'
    · subst heq
      simp only [List.filterMap_cons]
      cases hd : decodeField kvs fs with
      | none =>
        simp only [Option.map_none']
        exact hnone_tail fs.name hgt
      | some v =>
        simp only [Option.map_some']
        rw [List.find?_cons_of_pos _ (by simp)]
    · have hne : (g.name == fs.name) = false := by
        rw [beq_eq_false_iff_ne]
        intro h
        exact hgt (h ▸ List.mem_map_of_mem FieldSpec.name hmem')
      simp only [List.filterMap_cons]
      cases hd : decodeField kvs g with
      | none => exact ih htail hmem'
      | some v =>
        simp only [Option.map_some']
        rw [List.find?_cons_of_neg _ (by simp [hne])]
        exact ih htail hmem'

/-- Looking a field up in the candidate built by the parser is the same as
decoding that field directly, given unique field names. -/
theorem lookupVal_buildCandidate (kvs : List (String × String))
    (schema : SchemaDescriptor) (fs : FieldSpec)
    (hwf : schema.wellFormed) (hmem : fs ∈ schema.fields) :
    lookupVal (buildCandidate kvs schema) fs.name = decodeField kvs fs := by
  have h := find_values_aux kvs fs schema.fields hwf hmem
  rw [lookupVal]
  have hv : (buildCandidate kvs schema).values
      = schema.fields.filterMap (fun g => (decodeField kvs g).map (fun v => (g.name, v))) := rfl
  rw [hv, h]
  cases decodeField kvs fs <;> rfl

/-! ### Claim theorems -/

/-- C2: on the one-integer-field schema with a `ValidRange(0,10)` validator
on policy Fix, a mock returning `{"value": "-2"}` yields final result
`{"value": 0}` and a mock returning `{"value": "14"}` yields `{"value": 10}`;
both corrected values satisfy the range constraint, and each run completes in
one orchestrator pass with exactly one model call. -/
theorem c2_fix_clamps_to_nearest_bound :
    orchestrate (answerSchema .fix) "base" "1+1=?" (fun _ _ => some rawNeg2) 1
      = (.ok [("value", .vInt 0)] [] rawNeg2, 1) ∧
    orchestrate (answerSchema .fix) "base" "1+1=?" (fun _ _ => some rawFourteen) 1
      = (.ok [("value", .vInt 10)] [] rawFourteen, 1) ∧
    (validRange 0 10 .fix).check (.vInt 0) = true ∧
    (validRange 0 10 .fix).check (.vInt 10) = true :=
  ⟨by decide, by decide, by decide, by decide⟩

/-- C3: on the same schema with policy Reask and `maxReasks = 1`, a mock that
first returns `{"value": "-2"}` and then `{"value": "2"}` yields final result
`{"value": 2}` with exactly 2 total model calls. -/
theorem c3_reask_recovers_in_two_calls :
    orchestrate (answerSchema .reask) "base" "1+1=?"
        (fun k _ => if k == 0 then some rawNeg2 else some rawTwo) 1
      = (.ok [("value", .vInt 2)] [] rawTwo, 2) := by
  decide

/-- C4: when a field's validation failure carries the RaiseError policy, the
orchestrator surfaces ValidationError immediately after the first model call,
for every re-ask budget. -/
theorem c4_raise_error_terminates_immediately
    (schema : SchemaDescriptor) (base query : String)
    (model : Nat → String → Option String) (raw : String)
    (f0 : ValidationFailure) (budget : Nat)
    (hmodel : model 0 (compose base query schema []) = some raw)
    (hfind : (fieldFailures schema (parseToCandidate raw schema)).find?
        (fun f => f.action == OnFailAction.raiseError) = some f0) :
    orchestrate schema base query model budget = (.validationError f0.reason, 1) := by
  have hdec : decideAttempt schema (parseToCandidate raw schema) = .raiseErr f0.reason := by
    simp [decideAttempt, hfind]
  have hstep : stepAttempt schema base query model 0 []
      = .terminal (.validationError f0.reason) := by
    simp [stepAttempt, hmodel, hdec]
  exact orchestrateGo_of_terminal schema base query model 0 []
    (.validationError f0.reason) hstep budget

/-- Witness for C4: the notebook's exception scenario — `ValidRange(0,10)` on
policy RaiseError with the mock returning `{"value": "-2"}` raises
ValidationError with exactly 1 model call despite a nonzero budget. -/
theorem c4_raise_error_terminates_immediately_witness :
    orchestrate (answerSchema .raiseError) "base" "1+1=?" (fun _ _ => some rawNeg2) 1
      = (.validationError "value out of range", 1) :=
  c4_raise_error_terminates_immediately (answerSchema .raiseError) "base" "1+1=?"
    (fun _ _ => some rawNeg2) rawNeg2
    ⟨"value", .raiseError, some (.vInt 0), "value out of range"⟩ 1 rfl (by decide)

/-- C5: `parse` raises ParseError exactly on total structural failure; a
structurally valid payload whose field value cannot be coerced yields that
field absent with a logged CoercionFailure, and such a failure is absorbed
into the validation mechanism, driving a re-ask instead of aborting the
orchestration. -/
theorem c5_coercion_failure_absorbed :
    parse rawUncoercible integerAnswerSchema
      = .ok ⟨[], ["value"]⟩ ∧
    parse rawGarbage integerAnswerSchema = .error .structuralFailure ∧
    (∀ raw schema, (∃ e, parse raw schema = .error e) ↔ structuralDecode raw = none) ∧
    orchestrate integerAnswerSchema "base" "1+1=?" (fun _ _ => some rawUncoercible) 1
      = (.ok [] [⟨"value", .reask, none, "missing or uncoercible value"⟩] rawUncoercible, 2) := by
  refine ⟨rfl, rfl, ?_, by decide⟩
  intro raw schema
  unfold parse
  cases h : structuralDecode raw <;> simp
  exact ⟨.structuralFailure, trivial⟩

/-- C6 counterexample: on a two-field schema in which field `a` fails its
Refrain-policy validator and field `b` fails its RaiseError-policy validator,
the final result is a surfaced ValidationError, not the refrained
sentinel — so a failing Refrain field does not decide the result regardless
of the other fields. -/
theorem c6_refrain_counterexample :
    validateField fieldRefrainA
        (lookupVal (parseToCandidate rawBothNeg refrainRaiseSchema) "a")
      = [⟨"a", .refrain, some (.vInt 0), "value out of range"⟩] ∧
    orchestrate refrainRaiseSchema "base" "1+1=?" (fun _ _ => some rawBothNeg) 1
      = (.validationError "value out of range", 1) ∧
    (FinalResult.validationError "value out of range" ≠ .refrained rawBothNeg) :=
  ⟨by decide, by decide, by decide⟩

/-- C6 (amended): if some field fails validation under the Refrain policy and
no validation failure of any field carries the RaiseError policy, the entire
final result is the refrained no-output sentinel after exactly one model
call, regardless of the other fields' validity and of the budget. -/
theorem c6_refrain_discards_entire_result
    (schema : SchemaDescriptor) (base query : String)
    (model : Nat → String → Option String) (raw : String) (budget : Nat)
    (hmodel : model 0 (compose base query schema []) = some raw)
    (hfail : ∃ f ∈ fieldFailures schema (parseToCandidate raw schema),
        f.action = OnFailAction.refrain)
    (hnoraise : ∀ f ∈ fieldFailures schema (parseToCandidate raw schema),
        f.action ≠ OnFailAction.raiseError) :
    orchestrate schema base query model budget = (.refrained raw, 1) := by
  have hfind : (fieldFailures schema (parseToCandidate raw schema)).find?
      (fun f => f.action == OnFailAction.raiseError) = none := by
    rw [List.find?_eq_none]
    intro f hf
    simp [hnoraise f hf]
  have hany : (fieldFailures schema (parseToCandidate raw schema)).any
      (fun f => f.action == OnFailAction.refrain) = true := by
    rcases hfail with ⟨f, hf, hact⟩
    exact List.any_eq_true.mpr ⟨f, hf, by simp [hact]⟩
  have hdec : decideAttempt schema (parseToCandidate raw schema) = .refrainAll := by
    simp [decideAttempt, hfind, hany]
  have hstep : stepAttempt schema base query model 0 [] = .terminal (.refrained raw) := by
    simp [stepAttempt, hmodel, hdec]
  exact orchestrateGo_of_terminal schema base query model 0 [] (.refrained raw) hstep budget

/-- Witness for C6 (amended): the one-field Refrain scenario — the schema's
single field fails its Refrain-policy validator on `{"value": "-2"}` and the
whole result becomes the refrained sentinel. -/
theorem c6_refrain_discards_entire_result_witness :
    orchestrate (answerSchema .refrain) "base" "1+1=?" (fun _ _ => some rawNeg2) 1
      = (.refrained rawNeg2, 1) :=
  c6_refrain_discards_entire_result (answerSchema .refrain) "base" "1+1=?"
    (fun _ _ => some rawNeg2) rawNeg2 1 rfl
    ⟨⟨"value", .refrain, some (.vInt 0), "value out of range"⟩, by decide, rfl⟩
    (by decide)

/-- C10: when the only field of the schema is removed by its Filter action,
the orchestrator still completes normally, returning the empty mapping with
the raw model text after one model call — not the refrained sentinel and not
an error. -/
theorem c10_all_filtered_returns_empty_mapping :
    orchestrate (answerSchema .filter) "base" "1+1=?" (fun _ _ => some rawNeg2) 1
      = (.ok [] [] rawNeg2, 1) ∧
    (FinalResult.ok [] [] rawNeg2 ≠ .refrained rawNeg2) :=
  ⟨by decide, by decide⟩

/-- C1: with `maxReasks = N` and a model that always produces an output whose
validation marks some field for re-ask, the loop terminates after exactly
N re-ask rounds — N + 1 total model calls — and returns normally with the
best-effort result of the last attempt, the re-asked field marked
unresolved. -/
theorem c1_reask_budget_bounds_loop
    (schema : SchemaDescriptor) (base query fname : String)
    (model : Nat → String → Option String)
    (r : Nat → String) (m : Nat → List (String × Value))
    (rs : Nat → List ValidationFailure)
    (hmodel : ∀ k p, model k p = some (r k))
    (hdecide : ∀ k, decideAttempt schema (parseToCandidate (r k) schema)
        = .done (m k) (rs k))
    (hne : ∀ k, rs k ≠ [])
    (hname : ∀ k, fname ∈ (rs k).map ValidationFailure.fieldName)
    (N : Nat) :
    orchestrate schema base query model N = (.ok (m N) (rs N) (r N), N + 1) ∧
    fname ∈ (rs N).map ValidationFailure.fieldName := by
  have hstep : ∀ k prior, stepAttempt schema base query model k prior
      = .needsReask (m k) (rs k) (r k) := by
    intro k prior
    have hie : (rs k).isEmpty = false := by
      rw [List.isEmpty_eq_false]; exact hne k
    simp [stepAttempt, hmodel, hdecide, hie]
  have hgo : ∀ b a prior, orchestrateGo schema base query model b a prior
      = (.ok (m (a + b)) (rs (a + b)) (r (a + b)), a + b + 1) := by
    intro b
    induction b with
    | zero => intro a prior; simp [orchestrateGo, hstep]
    | succ n ih =>
      intro a prior
      have harith : a + (n + 1) = (a + 1) + n := by omega
      rw [harith]
      simp only [orchestrateGo, hstep]
      exact ih (a + 1) (rs a)
  refine ⟨?_, hname N⟩
  have := hgo N 0 []
  simpa [orchestrate] using this

/-- Witness for C1: `ValidRange(0,10)` on policy Reask with a mock that
always returns `{"value": "-2"}` and `maxReasks = 2` — exactly 3 model calls,
a normal best-effort return, and the field `value` marked unresolved. -/
theorem c1_reask_budget_bounds_loop_witness :
    orchestrate (answerSchema .reask) "base" "1+1=?" (fun _ _ => some rawNeg2) 2
      = (.ok [("value", .vInt (-2))]
          [⟨"value", .reask, some (.vInt 0), "value out of range"⟩] rawNeg2, 3) ∧
    "value" ∈ ([⟨"value", .reask, some (.vInt 0), "value out of range"⟩]
        : List ValidationFailure).map ValidationFailure.fieldName :=
  c1_reask_budget_bounds_loop (answerSchema .reask) "base" "1+1=?" "value"
    (fun _ _ => some rawNeg2) (fun _ => rawNeg2)
    (fun _ => [("value", .vInt (-2))])
    (fun _ => [⟨"value", .reask, some (.vInt 0), "value out of range"⟩])
    (fun _ _ => rfl)
    (fun _ => (by decide :
      decideAttempt (answerSchema .reask) (parseToCandidate rawNeg2 (answerSchema .reask))
        = .done [("value", .vInt (-2))]
            [⟨"value", .reask, some (.vInt 0), "value out of range"⟩]))
    (fun _ => (by decide :
      ([⟨"value", .reask, some (.vInt 0), "value out of range"⟩]
        : List ValidationFailure) ≠ []))
    (fun _ => (by decide :
      "value" ∈ ([⟨"value", .reask, some (.vInt 0), "value out of range"⟩]
        : List ValidationFailure).map ValidationFailure.fieldName)) 2

/-- C9: on every re-ask attempt (nonempty prior failures), the prompt
produced by the composer embeds the original user query and ends with the
rendering of which fields failed and why — the re-ask prompt never omits the
original query. -/
theorem c9_reask_prompt_keeps_query
    (base query : String) (schema : SchemaDescriptor)
    (prior : List ValidationFailure) (hne : prior ≠ []) :
    (∃ s t, compose base query schema prior = s ++ (query ++ t)) ∧
    (∃ u, compose base query schema prior = u ++ renderFailures prior) := by
  cases prior with
  | nil => exact absurd rfl hne
  | cons f fs =>
    constructor
    · refine ⟨base ++ "\n",
        "\n" ++ renderSchema schema ++
          ("\nThe following fields failed validation:\n" ++ renderFailures (f :: fs)), ?_⟩
      simp [compose, String.append_assoc]
    · refine ⟨base ++ "\n" ++ query ++ "\n" ++ renderSchema schema ++
        "\nThe following fields failed validation:\n", ?_⟩
      simp [compose, String.append_assoc]

/-- Witness for C9: a concrete re-ask round — one prior failure on the
one-field schema — whose composed prompt contains the query and the failure
rendering. -/
theorem c9_reask_prompt_keeps_query_witness :
    (∃ s t, compose "base" "1+1=?" integerAnswerSchema
        [⟨"value", .reask, none, "missing"⟩] = s ++ ("1+1=?" ++ t)) ∧
    (∃ u, compose "base" "1+1=?" integerAnswerSchema
        [⟨"value", .reask, none, "missing"⟩]
      = u ++ renderFailures [⟨"value", .reask, none, "missing"⟩]) :=
  c9_reask_prompt_keeps_query "base" "1+1=?" integerAnswerSchema
    [⟨"value", .reask, none, "missing"⟩] (by decide)

/-- C7: whenever the Deciding step produces a result mapping, a field whose
first validation failure carries the Filter policy is absent from that
mapping, while every field that passed validation keeps its parsed value
unchanged. -/
theorem c7_filter_removes_only_failing_field
    (schema : SchemaDescriptor) (cand : CandidateOutput) (fs : FieldSpec)
    (m : List (String × Value)) (rs : List ValidationFailure)
    (hwf : schema.wellFormed) (hmem : fs ∈ schema.fields)
    (hfail : ∃ f rest, validateField fs (lookupVal cand fs.name) = f :: rest ∧
        f.action = OnFailAction.filter)
    (hdone : decideAttempt schema cand = .done m rs) :
    (∀ v : Value, (fs.name, v) ∉ m) ∧
    (∀ g ∈ schema.fields, ∀ v, lookupVal cand g.name = some v →
        validateField g (some v) = [] → (g.name, v) ∈ m) := by
  have hwf' : (schema.fields.map FieldSpec.name).Nodup := hwf
  have hm : m = assembledMap schema cand := by
    simp only [decideAttempt] at hdone
    split at hdone
    · simp at hdone
    · split at hdone
      · simp at hdone
      · simp only [AttemptOutcome.done.injEq] at hdone
        exact hdone.1.symm
  subst hm
  constructor
  · intro v hv
    rcases List.mem_filterMap.mp hv with ⟨g, hg, hmap⟩
    rcases Option.map_eq_some'.mp hmap with ⟨w, hw, heq⟩
    have hn : g.name = fs.name := congrArg Prod.fst heq
    have hgfs : g = fs := List.inj_on_of_nodup_map hwf' hg hmem hn
    subst hgfs
    rcases hfail with ⟨f, rest, hval, hact⟩
    simp [resolveField, hval, hact] at hw
  · intro g hg v hlook hpass
    apply List.mem_filterMap.mpr
    refine ⟨g, hg, ?_⟩
    simp [resolveField, hlook, hpass]

/-- Witness for C7: a two-field Filter schema where `a` fails its range check
and `b` passes — the result mapping drops `a` and keeps `b` untouched. -/
theorem c7_filter_removes_only_failing_field_witness :
    (∀ v : Value, (fieldFilterA.name, v) ∉ [("b", Value.vInt 2)]) ∧
    (∀ g ∈ twoFilterSchema.fields, ∀ v,
        lookupVal (parseToCandidate rawMixed twoFilterSchema) g.name = some v →
        validateField g (some v) = [] → (g.name, v) ∈ [("b", Value.vInt 2)]) :=
  c7_filter_removes_only_failing_field twoFilterSchema
    (parseToCandidate rawMixed twoFilterSchema) fieldFilterA
    [("b", Value.vInt 2)] []
    (by simp only [SchemaDescriptor.wellFormed]; decide)
    (by simp [twoFilterSchema])
    ⟨⟨"a", .filter, some (.vInt 0), "value out of range"⟩, [], by decide, rfl⟩
    (by decide)

/-- C8: a raw output that structurally decodes and passes every validator of
every field is returned unchanged on the first attempt — one model call,
zero re-asks consumed, no unresolved failures. -/
theorem c8_valid_output_returned_unchanged
    (schema : SchemaDescriptor) (base query raw : String)
    (model : Nat → String → Option String) (cand : CandidateOutput) (budget : Nat)
    (hwf : schema.wellFormed)
    (hmodel : model 0 (compose base query schema []) = some raw)
    (hparse : parse raw schema = .ok cand)
    (hall : ∀ fs ∈ schema.fields, ∃ v, lookupVal cand fs.name = some v ∧
        validateField fs (some v) = []) :
    orchestrate schema base query model budget = (.ok cand.values [] raw, 1) := by
  obtain ⟨kvs, hkvs, hcand⟩ : ∃ kvs, structuralDecode raw = some kvs ∧
      cand = buildCandidate kvs schema := by
    unfold parse at hparse
    cases h : structuralDecode raw with
    | none => rw [h] at hparse; simp at hparse
    | some kvs =>
      rw [h] at hparse
      simp only [Except.ok.injEq] at hparse
      exact ⟨kvs, rfl, hparse.symm⟩
  have hlookup : ∀ fs ∈ schema.fields, lookupVal cand fs.name = decodeField kvs fs := by
    intro fs hfs
    rw [hcand]
    exact lookupVal_buildCandidate kvs schema fs hwf hfs
  have hff : fieldFailures schema cand = [] := by
    simp only [fieldFailures]
    apply foldr_append_of_all_nil
    intro fs hfs
    rcases hall fs hfs with ⟨v, hlook, hpass⟩
    rw [hlook]
    exact hpass
  have hrm : reaskMarks schema cand = [] := by
    simp only [reaskMarks]
    apply foldr_append_of_all_nil
    intro fs hfs
    rcases hall fs hfs with ⟨v, hlook, hpass⟩
    simp [resolveField, hlook, hpass]
  have hasm : assembledMap schema cand = cand.values := by
    have hv : cand.values = schema.fields.filterMap
        (fun g => (decodeField kvs g).map (fun v => (g.name, v))) := by
      rw [hcand]; rfl
    simp only [assembledMap]
    rw [hv]
    apply List.filterMap_congr
    intro g hg
    rcases hall g hg with ⟨v, hlook, hpass⟩
    have hdec : decodeField kvs g = some v := by rw [← hlookup g hg]; exact hlook
    simp [resolveField, hlook, hpass, hdec]
  have hdecA : decideAttempt schema cand = .done cand.values [] := by
    simp [decideAttempt, hff, hasm, hrm]
  have hpc : parseToCandidate raw schema = cand := by
    simp [parseToCandidate, hparse]
  have hstep : stepAttempt schema base query model 0 []
      = .terminal (.ok cand.values [] raw) := by
    simp [stepAttempt, hmodel, hpc, hdecA]
  have h := orchestrateGo_of_terminal schema base query model 0 []
    (.ok cand.values [] raw) hstep budget
  simpa [orchestrate] using h

/-- Witness for C8: the happy path — `{"value": "2"}` on the validator-free
one-field schema is returned unchanged after one model call. -/
theorem c8_valid_output_returned_unchanged_witness :
    orchestrate integerAnswerSchema "base" "1+1=?" (fun _ _ => some rawTwo) 0
      = (.ok [("value", .vInt 2)] [] rawTwo, 1) :=
  c8_valid_output_returned_unchanged integerAnswerSchema "base" "1+1=?" rawTwo
    (fun _ _ => some rawTwo) ⟨[("value", .vInt 2)], []⟩ 0
    (by simp only [SchemaDescriptor.wellFormed]; decide) rfl rfl
    (by
      intro fs hfs
      have hfs' : fs = ⟨"value", .integer, "The answer to the question.", []⟩ := by
        simpa [integerAnswerSchema] using hfs
      subst hfs'
      exact ⟨.vInt 2, rfl, rfl⟩)

end Spec2Proof
